import Mathlib

/-!
Shallow embedding of the mysqlbox library (Go): the container lifecycle
controller, the readiness-polling loop, the container-log error scanner and
the two table-cleaning operations, together with theorems settling the
specification's claims against these definitions.

External effects (the docker client, the SQL driver, the filesystem) are
represented by explicit outcome parameters and by traces of the operations
the code performs, so every definition below mirrors the control flow of the
corresponding Go function.
-/

namespace Mysqlbox

/-- A Go error value: a plain message, an error built by wrapping another
error with a context message via a format directive, or the result of
applying that directive to a nil error. -/
inductive GoError where
  | msg (s : String)
  | wrapNil (context : String)
  | wrap (context : String) (inner : GoError)
  deriving DecidableEq

/-- Wrapping a `*error` variable: a nil value yields the nil-wrap rendering,
a non-nil value wraps that error. -/
def GoError.wrapOpt (context : String) : Option GoError → GoError
  | none => .wrapNil context
  | some e => .wrap context e

/-- The text of a Go error as `Error()`/`%s` would render it; wrapping a nil
error with the wrap directive renders the nil verb. -/
def GoError.errorText : GoError → String
  | .msg s => s
  | .wrapNil context => context ++ ": %!w(<nil>)"
  | .wrap context e => context ++ ": " ++ e.errorText

/-- Outcome of one connectivity probe (`db.PingContext`) inside the readiness
loop: success, failure because the 30s context deadline was exceeded, or any
other failure. -/
inductive PingResult where
  | ok
  | deadlineExceeded
  | otherErr
  deriving DecidableEq

/-- One iteration of the readiness loop: the probe's outcome, and whether the
container-closed signal is available at the select that follows the 500ms
sleep of that iteration. -/
structure WaitStep where
  ping : PingResult
  closedAfterSleep : Bool
  deriving DecidableEq

/-- Terminal outcome of `waitForDB`. -/
inductive WaitResult where
  | ready
  | couldNotConnect
  | containerClosedErr
  deriving DecidableEq

/-- The loop of `waitForDB` over a finite trace of iterations, mirroring the
source: the probe runs first; probe success breaks out of the loop; a
deadline-exceeded probe returns the could-not-connect error; on any other
probe failure the loop sleeps and then polls the container-closed channel,
returning the container-closed error when the signal is available and
continuing otherwise. `none` means the trace ended with the loop still
running. -/
def waitForDB : List WaitStep → Option WaitResult
  | [] => none
  | s :: rest =>
    match s.ping with
    | .ok => some .ready
    | .deadlineExceeded => some .couldNotConnect
    | .otherErr =>
      if s.closedAfterSleep then some .containerClosedErr else waitForDB rest

/-- Outcome of one `ContainerCreate` call: success with the container id, the
image-not-found error, or any other error. -/
inductive CreateOutcome where
  | ok (id : String)
  | errNotFound
  | errOther (e : GoError)
  deriving DecidableEq

/-- Outcomes the environment supplies to the container-create phase: the
first create call, the image pull, and the retried create call. -/
structure CreateTrace where
  first : CreateOutcome
  pull : Except GoError Unit
  second : CreateOutcome

/-- Result of the container-create phase of `Start`. -/
inductive CreatePhaseResult where
  | created (id : String)
  | failed (e : GoError)
  deriving DecidableEq

/-- The container-create phase of `Start`, mirroring the source: if the first
create fails with image-not-found, pull the image once (a pull failure is
returned wrapped with its context) and retry the create once. Any remaining
create failure returns the error built by wrapping the enclosing function's
`err` variable — which on this path still holds the nil result of creating
the docker client, not `createErr`. Returns the result and how many image
pulls were performed. -/
def createContainerPhase (tr : CreateTrace) : CreatePhaseResult × Nat :=
  let clientErr : Option GoError := none
  match tr.first with
  | .ok id => (.created id, 0)
  | .errNotFound =>
    match tr.pull with
    | .error e => (.failed (.wrap "failed to pull image" e), 1)
    | .ok _ =>
      match tr.second with
      | .ok id => (.created id, 1)
      | .errNotFound => (.failed (.wrapOpt "error creating container" clientErr), 1)
      | .errOther _ => (.failed (.wrapOpt "error creating container" clientErr), 1)
  | .errOther _ => (.failed (.wrapOpt "error creating container" clientErr), 0)

/-- A temp-file operation `Start` or `Stop` performs on the schema artifact. -/
inductive FileOp where
  | createTemp
  | removeTemp
  deriving DecidableEq

/-- Environment outcomes driving one run of `Start`: whether an initial SQL
payload was supplied, and the result of each fallible step in order. -/
structure StartEnv where
  hasScript : Bool
  tempFileRes : Except GoError Unit
  copyRes : Except GoError Unit
  clientRes : Except GoError Unit
  create : CreateTrace
  containerStartRes : Except GoError Unit
  portRes : Except GoError Nat
  connectRes : Except GoError Unit
  waitTrace : List WaitStep

/-- Result of `Start`: a ready instance or an error. -/
inductive StartResult where
  | ok
  | err (e : GoError)
  deriving DecidableEq

/-- The steps of `Start` after the schema-file handling, mirroring the
source order: docker client creation, container create (with the pull
retry), container start, port resolution, connect, readiness wait. `ops`
carries the temp-file operations performed so far; no step below ever adds a
remove, because the source's `Start` has no cleanup call on any of its
paths. -/
def startAfterFile (env : StartEnv) (ops : List FileOp) :
    Option (StartResult × List FileOp) :=
  match env.clientRes with
  | .error e => some (.err e, ops)
  | .ok _ =>
    match createContainerPhase env.create with
    | (.failed e, _) => some (.err e, ops)
    | (.created _, _) =>
      match env.containerStartRes with
      | .error e => some (.err e, ops)
      | .ok _ =>
        match env.portRes with
        | .error e => some (.err e, ops)
        | .ok _ =>
          match env.connectRes with
          | .error e => some (.err e, ops)
          | .ok _ =>
            match waitForDB env.waitTrace with
            | none => none
            | some .ready => some (.ok, ops)
            | some .couldNotConnect =>
              some (.err (.msg "could not connect to mysql"), ops)
            | some .containerClosedErr =>
              some (.err (.msg "container closed"), ops)

/-- The whole of `Start`: when an initial SQL payload is supplied, the schema
temp file is materialized first (recorded as a `createTemp` operation), then
the remaining steps run. The returned list records every temp-file operation
the function performed; `none` means the readiness trace was exhausted with
the loop still polling. -/
def StartModel (env : StartEnv) : Option (StartResult × List FileOp) :=
  if env.hasScript then
    match env.tempFileRes with
    | .error e => some (.err e, [])
    | .ok _ =>
      match env.copyRes with
      | .error e => some (.err e, [.createTemp])
      | .ok _ => startAfterFile env [.createTemp]
  else startAfterFile env []

/-- An all-successes environment up to the readiness wait, whose trace is the
parameter: used to connect `waitForDB` outcomes to `Start` outcomes. -/
def okStartEnv (trace : List WaitStep) : StartEnv :=
  { hasScript := false
    tempFileRes := .ok ()
    copyRes := .ok ()
    clientRes := .ok ()
    create := { first := .ok "cid", pull := .ok (), second := .ok "cid" }
    containerStartRes := .ok ()
    portRes := .ok 3306
    connectRes := .ok ()
    waitTrace := trace }

/-- The fixed grace period (in seconds) `stopContainer` passes to the
runtime's container-stop call. -/
def containerStopTimeoutSec : Nat := 60

/-- The fields of a started instance handle that the operations below read. -/
structure Box where
  dsn : String
  databaseName : String
  containerName : String
  doNotCleanTables : List String

/-- One message delivered by the removal wait after stopping: the removed
message, a not-found error, or any other error. -/
inductive WaitEvent where
  | removedMsg
  | errNotFound
  | errOther (e : GoError)

/-- The `stopContainer` helper: calls the runtime's stop with the fixed
60-second grace period and returns its result. -/
def stopContainer (stopCall : Nat → Except GoError Unit) : Except GoError Unit :=
  stopCall containerStopTimeoutSec

/-- The `Stop` operation: a nil handle fails with the instance-absent error;
otherwise the container is stopped with the fixed grace period (a stop
failure is returned), and the removal wait is entered: the removed message
ends the wait with success, a not-found error is treated as success, any
other error is returned. -/
def Stop (b : Option Box) (stopCall : Nat → Except GoError Unit)
    (waitEv : WaitEvent) : Except GoError Unit :=
  match b with
  | none => .error (.msg "mysqlbox is nil")
  | some _ =>
    match stopContainer stopCall with
    | .error e => .error e
    | .ok _ =>
      match waitEv with
      | .removedMsg => .ok ()
      | .errNotFound => .ok ()
      | .errOther e => .error e

/-- The `DB` accessor: nil-handle check, then the connection handle. -/
def DB (b : Option Box) : Except GoError Unit :=
  match b with
  | none => .error (.msg "mysqlbox is nil")
  | some _ => .ok ()

/-- The `DSN` accessor: nil-handle check, then the stored DSN. -/
def DSN (b : Option Box) : Except GoError String :=
  match b with
  | none => .error (.msg "mysqlbox is nil")
  | some bx => .ok bx.dsn

/-- The `ContainerName` accessor: nil-handle check, then the stored name. -/
def ContainerName (b : Option Box) : Except GoError String :=
  match b with
  | none => .error (.msg "mysqlbox is nil")
  | some bx => .ok bx.containerName

/-- Outcome of one `db.Exec` of a truncation statement. -/
inductive ExecResult where
  | ok
  | fail (e : GoError)
  deriving DecidableEq

/-- How a table-cleaning call ends: a normal nil return, an error return, or
a Go panic carrying the failure. -/
inductive CleanOutcome where
  | retOk
  | retErr (e : GoError)
  | panicked (e : GoError)
  deriving DecidableEq

/-- Whether a cleaning outcome is an error returned to the caller. -/
def CleanOutcome.isErrReturn : CleanOutcome → Bool
  | .retErr _ => true
  | _ => false

/-- The truncation statement both cleaners build for a table name: the name
is spliced verbatim between two backquote characters. -/
def truncateStmt (t : String) : String :=
  "TRUNCATE TABLE `" ++ t ++ "`"

/-- The row loop of `CleanAllTables`: each catalog row that is in the
exclusion set is skipped; for the rest the truncation statement is executed,
and an execution failure panics with that error, ending the loop. The second
component records the statements executed, in order. -/
def cleanAllLoop (excluded : List String) (exec : String → ExecResult) :
    List String → CleanOutcome × List String
  | [] => (.retOk, [])
  | t :: rest =>
    if excluded.contains t then cleanAllLoop excluded exec rest
    else
      match exec (truncateStmt t) with
      | .fail e => (.panicked e, [truncateStmt t])
      | .ok =>
        let r := cleanAllLoop excluded exec rest
        (r.1, truncateStmt t :: r.2)

/-- The `CleanAllTables` operation: a nil handle returns the instance-absent
error; a catalog-query failure panics; otherwise the row loop runs against
the freshly queried table names with the handle's exclusion list. -/
def CleanAllTables (b : Option Box) (rows : Except GoError (List String))
    (exec : String → ExecResult) : CleanOutcome × List String :=
  match b with
  | none => (.retErr (.msg "mysqlbox is nil"), [])
  | some bx =>
    match rows with
    | .error e => (.panicked e, [])
    | .ok tables => cleanAllLoop bx.doNotCleanTables exec tables

/-- The loop of `CleanTables`: every named table's truncation statement is
executed in order; a failure only appends a diagnostic line and the loop
continues. Returns the executed statements and the diagnostic lines, both in
order. -/
def cleanTablesLoop (exec : String → ExecResult) :
    List String → List String × List String
  | [] => ([], [])
  | t :: rest =>
    let logged :=
      match exec (truncateStmt t) with
      | .ok => []
      | .fail e => ["truncate table failed (" ++ t ++ "): " ++ e.errorText ++ "\n"]
    let r := cleanTablesLoop exec rest
    (truncateStmt t :: r.1, logged ++ r.2)

/-- The `CleanTables` operation: a nil handle returns the instance-absent
error; otherwise the loop runs over exactly the caller-supplied names (the
handle's exclusion list is never consulted) and the call returns nil. -/
def CleanTables (b : Option Box) (exec : String → ExecResult)
    (tables : List String) : CleanOutcome × List String × List String :=
  match b with
  | none => (.retErr (.msg "mysqlbox is nil"), [], [])
  | some _ =>
    let r := cleanTablesLoop exec tables
    (.retOk, r.1, r.2)

/-- One step of the stderr line scanner in `readContainerLogs`: a line whose
text begins with the literal marker is appended to the collector when one is
configured; every other line leaves the collector unchanged. -/
def scanStep (collector : Option (List String)) (line : String) :
    Option (List String) :=
  if line.startsWith "ERROR" then
    match collector with
    | some acc => some (acc ++ [line])
    | none => none
  else collector

/-- The stderr line scanner over the lines arriving on the err channel, in
arrival order. -/
def readErrLines (collector : Option (List String)) (lines : List String) :
    Option (List String) :=
  lines.foldl scanStep collector

/-- Row-count semantics of one executed statement: the truncation statement
of a table empties exactly that table. -/
def applyStmt (counts : String → Nat) (stmt : String) : String → Nat :=
  fun t => if stmt = truncateStmt t then 0 else counts t

/-- Row-count semantics of a statement list: a statement changes the counts
only when its execution succeeds. -/
def applySucceeded (exec : String → ExecResult) (stmts : List String)
    (counts : String → Nat) : String → Nat :=
  stmts.foldl (fun cs s => match exec s with | .ok => applyStmt cs s | .fail _ => cs) counts

/-- The backquote character. -/
def backquoteChar : Char := Char.ofNat 96

/-- The fixed preamble of every truncation statement, as characters. -/
def quotedStmtPre : List Char := "TRUNCATE TABLE `".data

/-- A statement whose table identifier is contained within a single
backquoted identifier: the fixed preamble, then an identifier free of
backquote characters, then the closing backquote. -/
def wellQuotedStmt (s : String) : Prop :=
  ∃ n : List Char, s.data = quotedStmtPre ++ n ++ [backquoteChar] ∧ backquoteChar ∉ n

/-! Helper lemmas about the definitions above. -/

theorem readErrLines_some (acc lines : List String) :
    readErrLines (some acc) lines =
      some (acc ++ lines.filter (fun l => l.startsWith "ERROR")) := by
  induction lines generalizing acc with
  | nil => simp [readErrLines]
  | cons l rest ih =>
    cases h : l.startsWith "ERROR" with
    | true =>
      have : scanStep (some acc) l = some (acc ++ [l]) := by simp [scanStep, h]
      simp only [readErrLines, List.foldl_cons, this]
      rw [show List.foldl scanStep (some (acc ++ [l])) rest =
            readErrLines (some (acc ++ [l])) rest from rfl, ih]
      simp [List.filter_cons, h]
    | false =>
      have : scanStep (some acc) l = some acc := by simp [scanStep, h]
      simp only [readErrLines, List.foldl_cons, this]
      rw [show List.foldl scanStep (some acc) rest =
            readErrLines (some acc) rest from rfl, ih]
      simp [List.filter_cons, h]

theorem readErrLines_none (lines : List String) :
    readErrLines none lines = none := by
  induction lines with
  | nil => rfl
  | cons l rest ih =>
    have : scanStep none l = none := by
      cases h : l.startsWith "ERROR" <;> simp [scanStep, h]
    simp only [readErrLines, List.foldl_cons, this]
    exact ih

theorem cleanTablesLoop_spec (exec : String → ExecResult) (tables : List String) :
    cleanTablesLoop exec tables =
      (tables.map truncateStmt,
       tables.filterMap (fun t =>
         match exec (truncateStmt t) with
         | .ok => none
         | .fail e =>
           some ("truncate table failed (" ++ t ++ "): " ++ e.errorText ++ "\n"))) := by
  induction tables with
  | nil => rfl
  | cons t rest ih =>
    cases hex : exec (truncateStmt t) <;>
      simp [cleanTablesLoop, hex, ih, List.filterMap_cons]

theorem cleanAllLoop_all_ok (excluded : List String) (exec : String → ExecResult)
    (tables : List String)
    (h : ∀ t ∈ tables, t ∉ excluded → exec (truncateStmt t) = .ok) :
    cleanAllLoop excluded exec tables =
      (.retOk, (tables.filter (fun t => !excluded.contains t)).map truncateStmt) := by
  induction tables with
  | nil => rfl
  | cons t rest ih =>
    have hrest : ∀ s ∈ rest, s ∉ excluded → exec (truncateStmt s) = .ok :=
      fun s hs => h s (List.mem_cons_of_mem _ hs)
    by_cases hmem : t ∈ excluded
    · simp [cleanAllLoop, hmem, ih hrest, List.filter_cons]
    · have hex := h t (List.mem_cons_self t rest) hmem
      simp [cleanAllLoop, hmem, hex, ih hrest, List.filter_cons]

theorem cleanAllLoop_stops (excluded : List String) (exec : String → ExecResult)
    (pre : List String) (t : String) (post : List String) (e : GoError)
    (hpre : ∀ s ∈ pre, s ∈ excluded ∨ exec (truncateStmt s) = .ok)
    (ht : t ∉ excluded)
    (he : exec (truncateStmt t) = .fail e) :
    cleanAllLoop excluded exec (pre ++ t :: post) =
      (.panicked e,
       (pre.filter (fun s => !excluded.contains s)).map truncateStmt
         ++ [truncateStmt t]) := by
  induction pre with
  | nil => simp [cleanAllLoop, ht, he]
  | cons s pre ih =>
    have hs := hpre s (List.mem_cons_self s pre)
    have hpre' : ∀ x ∈ pre, x ∈ excluded ∨ exec (truncateStmt x) = .ok :=
      fun x hx => hpre x (List.mem_cons_of_mem _ hx)
    by_cases hmem : s ∈ excluded
    · simp [cleanAllLoop, hmem, ih hpre', List.filter_cons]
    · have hex : exec (truncateStmt s) = .ok := by
        rcases hs with hs | hs
        · exact absurd hs hmem
        · exact hs
      simp [cleanAllLoop, hmem, hex, ih hpre', List.filter_cons]

theorem cleanAllLoop_issued_not_excluded (excluded : List String)
    (exec : String → ExecResult) (tables : List String) :
    ∀ stmt ∈ (cleanAllLoop excluded exec tables).2,
      ∃ s, stmt = truncateStmt s ∧ s ∉ excluded := by
  induction tables with
  | nil => intro stmt h; simp [cleanAllLoop] at h
  | cons t rest ih =>
    intro stmt h
    by_cases hmem : t ∈ excluded
    · simp only [cleanAllLoop] at h
      rw [if_pos (by simp [hmem])] at h
      exact ih stmt h
    · simp only [cleanAllLoop] at h
      rw [if_neg (by simp [hmem])] at h
      cases hex : exec (truncateStmt t) with
      | fail e => rw [hex] at h; simp at h; exact ⟨t, h, hmem⟩
      | ok =>
        rw [hex] at h
        simp only [List.mem_cons] at h
        rcases h with h | h
        · exact ⟨t, h, hmem⟩
        · exact ih stmt h

theorem truncateStmt_inj {a b : String} (h : truncateStmt a = truncateStmt b) :
    a = b := by
  rcases a with ⟨la⟩
  rcases b with ⟨lb⟩
  have h1 : quotedStmtPre ++ la ++ [backquoteChar] =
      quotedStmtPre ++ lb ++ [backquoteChar] := congrArg String.data h
  have h2 := List.append_cancel_right h1
  have h3 := List.append_cancel_left h2
  exact congrArg String.mk h3

theorem waitForDB_closed (trace : List WaitStep)
    (hping : ∀ s ∈ trace, s.ping = .otherErr)
    (hclosed : ∃ s ∈ trace, s.closedAfterSleep = true) :
    waitForDB trace = some .containerClosedErr := by
  induction trace with
  | nil => simp at hclosed
  | cons s rest ih =>
    have hs : s.ping = .otherErr := hping s (List.mem_cons_self s rest)
    cases hc : s.closedAfterSleep with
    | true => simp [waitForDB, hs, hc]
    | false =>
      have hclosed' : ∃ x ∈ rest, x.closedAfterSleep = true := by
        rcases hclosed with ⟨x, hx, hxc⟩
        rcases List.mem_cons.mp hx with rfl | hx'
        · rw [hc] at hxc; cases hxc
        · exact ⟨x, hx', hxc⟩
      have hping' : ∀ x ∈ rest, x.ping = .otherErr :=
        fun x hx => hping x (List.mem_cons_of_mem _ hx)
      simp [waitForDB, hs, hc, ih hping' hclosed']

theorem waitForDB_timeout (trace : List WaitStep)
    (h : waitForDB trace = some .couldNotConnect) :
    ∃ pre d post, trace = pre ++ d :: post ∧ d.ping = .deadlineExceeded ∧
      ∀ s ∈ pre, s.ping = .otherErr ∧ s.closedAfterSleep = false := by
  induction trace with
  | nil => simp [waitForDB] at h
  | cons s rest ih =>
    cases hp : s.ping with
    | ok => simp [waitForDB, hp] at h
    | deadlineExceeded =>
      exact ⟨[], s, rest, by simp, hp, by simp⟩
    | otherErr =>
      cases hc : s.closedAfterSleep with
      | true => simp [waitForDB, hp, hc] at h
      | false =>
        have h' : waitForDB rest = some .couldNotConnect := by
          simpa [waitForDB, hp, hc] using h
        obtain ⟨pre, d, post, htr, hd, hpre⟩ := ih h'
        refine ⟨s :: pre, d, post, by rw [htr, List.cons_append], hd, ?_⟩
        intro x hx
        rcases List.mem_cons.mp hx with rfl | hx'
        · exact ⟨hp, hc⟩
        · exact hpre x hx'

theorem startAfterFile_ops (env : StartEnv) (ops0 : List FileOp)
    (r : StartResult) (ops : List FileOp)
    (h : startAfterFile env ops0 = some (r, ops)) : ops = ops0 := by
  unfold startAfterFile at h
  repeat' split at h
  all_goals simp_all

/-! Concrete objects used by the example parts of the claim theorems. -/

/-- An instance handle whose exclusion set is `{"categories"}`. -/
def exampleBox : Box :=
  { dsn := "root@tcp(127.0.0.1:3306)/testing?parseTime=true"
    databaseName := "testing"
    containerName := "mysqlbox-test"
    doNotCleanTables := ["categories"] }

/-- An instance handle with an empty exclusion set. -/
def plainBox : Box :=
  { dsn := "root@tcp(127.0.0.1:3306)/testing?parseTime=true"
    databaseName := "testing"
    containerName := "mysqlbox-plain"
    doNotCleanTables := [] }

/-- Row counts before cleaning: 10 rows in `users`, 5 in `categories`. -/
def exampleCounts : String → Nat :=
  fun t => if t = "users" then 10 else if t = "categories" then 5 else 0

/-- An executor for which only the truncation of `non_existent` fails. -/
def execNoSuchTable : String → ExecResult :=
  fun s =>
    if s = truncateStmt "non_existent" then
      .fail (.msg "Unknown table 'testing.non_existent'")
    else .ok

/-- An executor for which only the truncation of `users` fails. -/
def execFailUsers : String → ExecResult :=
  fun s => if s = truncateStmt "users" then .fail (.msg "lock wait timeout") else .ok

/-- An executor for which only the truncation of `orders` fails. -/
def execFailOrders : String → ExecResult :=
  fun s => if s = truncateStmt "orders" then .fail (.msg "boom") else .ok

/-! The claims. -/

/-- Claim C7: for every sequence of lines arriving on the err channel,
exactly the lines whose text begins with the literal marker "ERROR" are
appended to the configured collector, each exactly once, in arrival order;
with no collector configured, nothing is recorded. -/
theorem c7_error_line_scanner :
    (∀ acc lines, readErrLines (some acc) lines =
      some (acc ++ lines.filter (fun l => l.startsWith "ERROR"))) ∧
    (∀ lines, readErrLines none lines = none) :=
  ⟨readErrLines_some, readErrLines_none⟩

/-- Claim C9: every public fallible operation invoked on a handle that was
never started (a nil handle) — Stop, DB, DSN, ContainerName, CleanAllTables,
CleanTables — returns the instance-absent error rather than crashing or
failing differently. -/
theorem c9_nil_handle_rejected :
    (∀ stopCall ev, Stop none stopCall ev = .error (.msg "mysqlbox is nil")) ∧
    DB none = .error (.msg "mysqlbox is nil") ∧
    DSN none = .error (.msg "mysqlbox is nil") ∧
    ContainerName none = .error (.msg "mysqlbox is nil") ∧
    (∀ rows exec, CleanAllTables none rows exec =
      (.retErr (.msg "mysqlbox is nil"), [])) ∧
    (∀ exec tables, CleanTables none exec tables =
      (.retErr (.msg "mysqlbox is nil"), [], [])) :=
  ⟨fun _ _ => rfl, rfl, rfl, rfl, fun _ _ => rfl, fun _ _ => rfl⟩

/-- Claim C8: Stop requests termination with the fixed 60s grace period and
then waits for the removed condition; a not-found error from that wait is
success (the container is already gone), the removed message is success, and
any other wait error is returned; a failure of the stop request itself is
also returned. -/
theorem c8_stop_removal_wait :
    containerStopTimeoutSec = 60 ∧
    (∀ bx stopCall, stopCall containerStopTimeoutSec = .ok () →
      Stop (some bx) stopCall .removedMsg = .ok () ∧
      Stop (some bx) stopCall .errNotFound = .ok () ∧
      ∀ e, Stop (some bx) stopCall (.errOther e) = .error e) ∧
    (∀ bx stopCall e, stopCall containerStopTimeoutSec = .error e →
      ∀ ev, Stop (some bx) stopCall ev = .error e) := by
  refine ⟨rfl, ?_, ?_⟩
  · intro bx stopCall h
    refine ⟨?_, ?_, fun e => ?_⟩ <;> simp [Stop, stopContainer, h]
  · intro bx stopCall e h ev
    simp [Stop, stopContainer, h]

/-- Claim C8 witness: a concrete run in which the stop call succeeds and the
removal wait answers not-found still ends in success. -/
theorem c8_stop_removal_wait_witness :
    Stop (some plainBox) (fun _ => .ok ()) .errNotFound = .ok () :=
  (c8_stop_removal_wait.2.1 plainBox (fun _ => .ok ()) rfl).2.1

/-- Claim C10: both cleaners build the truncation statement by enclosing the
table name verbatim between backquotes with no escaping, so the text is
exactly "TRUNCATE TABLE `name`"; a name that itself contains a backquote
therefore yields a statement whose identifier is not contained within a
single backquoted identifier. -/
theorem c10_truncate_statement_quoting :
    (∀ name, truncateStmt name = "TRUNCATE TABLE `" ++ name ++ "`") ∧
    (∀ name, (truncateStmt name).data =
      quotedStmtPre ++ name.data ++ [backquoteChar]) ∧
    ¬ wellQuotedStmt (truncateStmt "a`b") := by
  refine ⟨fun _ => rfl, ?_, ?_⟩
  · intro name
    rcases name with ⟨d⟩
    rfl
  · rintro ⟨n, hdata, hn⟩
    have hfull : (truncateStmt "a`b").data =
        quotedStmtPre ++ ['a', backquoteChar, 'b', backquoteChar] := by decide
    have h1 : quotedStmtPre ++ ['a', backquoteChar, 'b', backquoteChar] =
        quotedStmtPre ++ (n ++ [backquoteChar]) := by
      rw [← hfull, hdata, List.append_assoc]
    have h2 := List.append_cancel_left h1
    have h3 : (['a', backquoteChar, 'b'] : List Char) ++ [backquoteChar] =
        n ++ [backquoteChar] := by simpa using h2
    have h4 := List.append_cancel_right h3.symm
    apply hn
    rw [h4]
    decide

/-- Claim C5: CleanAllTables issues a truncation statement for each catalog
table name not in the exclusion set and none for any name in the exclusion
set; with exclusion set `{"categories"}` and tables `users` (10 rows) and
`categories` (5 rows), it leaves `users` at 0 rows and `categories` at 5. -/
theorem c5_clean_all_respects_exclusion :
    (∀ bx tables exec,
      (∀ t ∈ tables, t ∉ bx.doNotCleanTables → exec (truncateStmt t) = .ok) →
      CleanAllTables (some bx) (.ok tables) exec =
        (.retOk,
         (tables.filter (fun t => !bx.doNotCleanTables.contains t)).map truncateStmt)) ∧
    (∀ bx tables exec t, t ∈ bx.doNotCleanTables →
      truncateStmt t ∉ (CleanAllTables (some bx) (.ok tables) exec).2) ∧
    ((CleanAllTables (some exampleBox) (.ok ["users", "categories"]) (fun _ => .ok)).2 =
      ["TRUNCATE TABLE `users`"] ∧
     applySucceeded (fun _ => .ok)
       (CleanAllTables (some exampleBox) (.ok ["users", "categories"]) (fun _ => .ok)).2
       exampleCounts "users" = 0 ∧
     applySucceeded (fun _ => .ok)
       (CleanAllTables (some exampleBox) (.ok ["users", "categories"]) (fun _ => .ok)).2
       exampleCounts "categories" = 5) := by
  refine ⟨?_, ?_, by decide, by decide, by decide⟩
  · intro bx tables exec h
    simpa [CleanAllTables] using cleanAllLoop_all_ok bx.doNotCleanTables exec tables h
  · intro bx tables exec t hmem hstmt
    obtain ⟨s, hs, hsx⟩ :=
      cleanAllLoop_issued_not_excluded bx.doNotCleanTables exec tables _ hstmt
    exact hsx (truncateStmt_inj hs ▸ hmem)

/-- Claim C5 witness: the general part applied to the concrete example. -/
theorem c5_clean_all_respects_exclusion_witness :
    CleanAllTables (some exampleBox) (.ok ["users", "categories"]) (fun _ => .ok) =
      (.retOk,
       ((["users", "categories"].filter
         (fun t => !exampleBox.doNotCleanTables.contains t)).map truncateStmt)) :=
  c5_clean_all_respects_exclusion.1 exampleBox ["users", "categories"] (fun _ => .ok)
    (fun _ _ _ => rfl)

/-- Claim C6: CleanTables truncates each caller-named table in order
regardless of the exclusion set, records each individual failure as a
diagnostic line and continues, and always returns a non-error result; with
tables `users` (10 rows) and `categories` (5 rows), cleaning `categories`
and the missing `non_existent` leaves `users` at 10 and `categories` at 0
and still succeeds. -/
theorem c6_clean_tables_best_effort :
    (∀ bx exec tables, (CleanTables (some bx) exec tables).1 = .retOk) ∧
    (∀ bx exec tables,
      (CleanTables (some bx) exec tables).2.1 = tables.map truncateStmt) ∧
    (∀ bx bx' exec tables,
      CleanTables (some bx) exec tables = CleanTables (some bx') exec tables) ∧
    (∀ bx exec tables,
      (CleanTables (some bx) exec tables).2.2 = tables.filterMap (fun t =>
        match exec (truncateStmt t) with
        | .ok => none
        | .fail e =>
          some ("truncate table failed (" ++ t ++ "): " ++ e.errorText ++ "\n"))) ∧
    ((CleanTables (some exampleBox) execNoSuchTable ["categories", "non_existent"]).1 =
      .retOk ∧
     applySucceeded execNoSuchTable
       (CleanTables (some exampleBox) execNoSuchTable ["categories", "non_existent"]).2.1
       exampleCounts "users" = 10 ∧
     applySucceeded execNoSuchTable
       (CleanTables (some exampleBox) execNoSuchTable ["categories", "non_existent"]).2.1
       exampleCounts "categories" = 0 ∧
     (CleanTables (some exampleBox) execNoSuchTable ["categories", "non_existent"]).2.2 =
       ["truncate table failed (non_existent): Unknown table 'testing.non_existent'\n"]) := by
  refine ⟨?_, ?_, ?_, ?_, by decide, by decide, by decide, by decide⟩
  · intro bx exec tables; rfl
  · intro bx exec tables
    simp [CleanTables, cleanTablesLoop_spec]
  · intro bx bx' exec tables; rfl
  · intro bx exec tables
    simp [CleanTables, cleanTablesLoop_spec]

/-- Claim C2 counterexample: with no exclusions and tables `users` then
`orders`, an executor failing on `users` makes CleanAllTables panic with
that failure — a crash, not an error return — having stopped after the first
statement. -/
theorem c2_counterexample :
    (CleanAllTables (some plainBox) (.ok ["users", "orders"]) execFailUsers).1 =
      .panicked (.msg "lock wait timeout") ∧
    CleanOutcome.isErrReturn
      (CleanAllTables (some plainBox) (.ok ["users", "orders"]) execFailUsers).1 = false ∧
    (CleanAllTables (some plainBox) (.ok ["users", "orders"]) execFailUsers).2 =
      ["TRUNCATE TABLE `users`"] := by
  refine ⟨by decide, by decide, by decide⟩

/-- Claim C2 as amended: the first failing truncation stops CleanAllTables
from truncating the remaining tables, but the failure is propagated by a
panic carrying it (the call crashes) instead of being returned as an error
value. -/
theorem c2_first_failure_stops_via_panic (bx : Box) (exec : String → ExecResult)
    (pre : List String) (t : String) (post : List String) (e : GoError)
    (hpre : ∀ s ∈ pre, s ∈ bx.doNotCleanTables ∨ exec (truncateStmt s) = .ok)
    (ht : t ∉ bx.doNotCleanTables)
    (he : exec (truncateStmt t) = .fail e) :
    CleanAllTables (some bx) (.ok (pre ++ t :: post)) exec =
      (.panicked e,
       (pre.filter (fun s => !bx.doNotCleanTables.contains s)).map truncateStmt
         ++ [truncateStmt t]) := by
  simpa [CleanAllTables] using
    cleanAllLoop_stops bx.doNotCleanTables exec pre t post e hpre ht he

/-- Claim C2 witness: the amended statement at a concrete run — exclusion
set `{"categories"}`, catalog `categories, users, orders, later`, executor
failing on `orders`: the call panics with that failure after truncating only
`users` and `orders`. -/
theorem c2_first_failure_stops_via_panic_witness :
    CleanAllTables (some exampleBox)
        (.ok (["categories", "users"] ++ "orders" :: ["later"])) execFailOrders =
      (.panicked (.msg "boom"),
       ((["categories", "users"].filter
         (fun s => !exampleBox.doNotCleanTables.contains s)).map truncateStmt)
         ++ [truncateStmt "orders"]) :=
  c2_first_failure_stops_via_panic exampleBox execFailOrders
    ["categories", "users"] "orders" ["later"] (.msg "boom")
    (by decide) (by decide) (by decide)

/-- Claim C1: over any trace of readiness-loop iterations in which no probe
succeeds and no probe hits the 30s deadline, an observed container-exit
signal makes the wait (and hence Start) fail with the container-closed
condition rather than the could-not-connect condition; conversely the
could-not-connect condition arises only from a deadline-exceeded probe with
no earlier probe success and no earlier observed exit signal. -/
theorem c1_exited_early_beats_timeout :
    (∀ trace : List WaitStep,
      (∀ s ∈ trace, s.ping = .otherErr) →
      (∃ s ∈ trace, s.closedAfterSleep = true) →
      waitForDB trace = some .containerClosedErr) ∧
    (∀ trace : List WaitStep,
      waitForDB trace = some .couldNotConnect →
      ∃ pre d post, trace = pre ++ d :: post ∧ d.ping = .deadlineExceeded ∧
        ∀ s ∈ pre, s.ping = .otherErr ∧ s.closedAfterSleep = false) ∧
    (∀ trace : List WaitStep,
      (∀ s ∈ trace, s.ping = .otherErr) →
      (∃ s ∈ trace, s.closedAfterSleep = true) →
      StartModel (okStartEnv trace) = some (.err (.msg "container closed"), [])) := by
  refine ⟨waitForDB_closed, waitForDB_timeout, ?_⟩
  intro trace hping hclosed
  have hw := waitForDB_closed trace hping hclosed
  simp [StartModel, okStartEnv, startAfterFile, createContainerPhase, hw]

/-- Claim C1 witness: a concrete trace — two failed probes, the exit signal
observed at the second — ends in the container-closed condition. -/
theorem c1_exited_early_beats_timeout_witness :
    waitForDB [⟨.otherErr, false⟩, ⟨.otherErr, true⟩] = some .containerClosedErr :=
  c1_exited_early_beats_timeout.1 [⟨.otherErr, false⟩, ⟨.otherErr, true⟩]
    (by decide) (by decide)

/-- Claim C3: evaluation of the create phase at its failure points. A first
create failure other than image-not-found triggers no pull and no retry; an
image-not-found failure triggers exactly one pull and one retry, and a pull
failure is returned wrapping the pull error. But on both create-failure
returns the error wraps the enclosing `err` variable — still nil from the
successful docker-client creation — so the failing create error is dropped
from the returned error, contrary to the claim. -/
theorem c3_create_retry_drops_cause :
    createContainerPhase
        { first := .errOther (.msg "container name already in use"),
          pull := .ok (), second := .ok "cid" } =
      (.failed (.wrapNil "error creating container"), 0) ∧
    createContainerPhase
        { first := .errNotFound, pull := .ok (),
          second := .errOther (.msg "create failed after pull") } =
      (.failed (.wrapNil "error creating container"), 1) ∧
    createContainerPhase
        { first := .errNotFound, pull := .ok (), second := .ok "cid" } =
      (.created "cid", 1) ∧
    (∀ e, createContainerPhase
        { first := .errNotFound, pull := .error e, second := .ok "cid" } =
      (.failed (.wrap "failed to pull image" e), 1)) :=
  ⟨rfl, rfl, rfl, fun _ => rfl⟩

/-- Claim C4: Start performs no remove of the temporary script file on any
of its exit paths — success or failure — so a failure after the file is
materialized leaves it behind (its deletion happens only in Stop's cleanup,
unreachable without a handle), contrary to the claim. -/
theorem c4_start_never_removes_temp_file (env : StartEnv) (r : StartResult)
    (ops : List FileOp) (h : StartModel env = some (r, ops)) :
    ops.contains FileOp.removeTemp = false := by
  have hshape : ops = [] ∨ ops = [FileOp.createTemp] := by
    unfold StartModel at h
    split at h
    · split at h
      · simp_all
      · split at h
        · simp_all
        · exact Or.inr (startAfterFile_ops env [FileOp.createTemp] r ops h)
    · exact Or.inl (startAfterFile_ops env [] r ops h)
  rcases hshape with rfl | rfl <;> rfl

/-- Claim C4 witness: a run with an initial script whose docker-client
creation fails after the file was materialized — the recorded operations
contain the create but no remove. -/
theorem c4_start_never_removes_temp_file_witness :
    ([FileOp.createTemp] : List FileOp).contains FileOp.removeTemp = false :=
  c4_start_never_removes_temp_file
    { hasScript := true
      tempFileRes := .ok ()
      copyRes := .ok ()
      clientRes := .error (.msg "docker client error")
      create := { first := .ok "cid", pull := .ok (), second := .ok "cid" }
      containerStartRes := .ok ()
      portRes := .ok 3306
      connectRes := .ok ()
      waitTrace := [] }
    (.err (.msg "docker client error")) [FileOp.createTemp] rfl

end Mysqlbox
